import Mathlib

/-!
# Verification of the dex-trading-agent position-management core

Shallow embedding of the services under `migration_python/services/`:
the paper-trading engine (`paper_trading_service.py`), the backtesting
service (`backtesting_service.py`), the market-data price feed
(`market_data_service.py`) and the price-stream poller
(`price_stream_service.py`).

Python floats are modelled as rationals (`ℚ`); wall-clock timestamps
(`datetime.utcnow()` / `datetime.now()`) are threaded explicitly as
parameters where the source reads them.  Python `dict`s keyed by symbol
are modelled as association lists with at most one binding per key
(every construction below either replaces an existing binding or appends
a fresh one, mirroring `d[k] = v` / `del d[k]`).
-/

namespace DexAgent

/-- `d.get(k)`: first binding for `k` in the association list. -/
def lookupKey {α : Type} : List (String × α) → String → Option α
  | [], _ => none
  | (k, v) :: rest, s => if k = s then some v else lookupKey rest s

/-- `d[k] = v`: replace the binding for `k` in place, or append it. -/
def upsertKey {α : Type} : List (String × α) → String → α → List (String × α)
  | [], k, v => [(k, v)]
  | (a, b) :: rest, k, v =>
    if a = k then (k, v) :: rest else (a, b) :: upsertKey rest k v

/-- `del d[k]`: drop every binding for `k`. -/
def eraseKey {α : Type} : List (String × α) → String → List (String × α)
  | [], _ => []
  | (a, b) :: rest, k =>
    if a = k then eraseKey rest k else (a, b) :: eraseKey rest k

theorem lookupKey_upsertKey_self {α : Type} (l : List (String × α)) (k : String) (v : α) :
    lookupKey (upsertKey l k v) k = some v := by
  induction l with
  | nil => simp [upsertKey, lookupKey]
  | cons hd tl ih =>
    obtain ⟨a, b⟩ := hd
    by_cases hak : a = k
    · simp [upsertKey, hak, lookupKey]
    · simp [upsertKey, hak, lookupKey, ih]

theorem lookupKey_upsertKey_ne {α : Type} (l : List (String × α)) (k k' : String) (v : α)
    (h : k' ≠ k) : lookupKey (upsertKey l k v) k' = lookupKey l k' := by
  have hkk' : ¬ (k = k') := fun hh => h hh.symm
  induction l with
  | nil => simp [upsertKey, lookupKey, hkk']
  | cons hd tl ih =>
    obtain ⟨a, b⟩ := hd
    by_cases hak : a = k
    · subst hak
      simp [upsertKey, lookupKey, hkk']
    · simp [upsertKey, hak, lookupKey, ih]

theorem lookupKey_eraseKey_self {α : Type} (l : List (String × α)) (k : String) :
    lookupKey (eraseKey l k) k = none := by
  induction l with
  | nil => simp [eraseKey, lookupKey]
  | cons hd tl ih =>
    obtain ⟨a, b⟩ := hd
    by_cases hak : a = k
    · simpa [eraseKey, hak, lookupKey] using ih
    · simpa [eraseKey, hak, lookupKey] using ih

theorem lookupKey_eraseKey_ne {α : Type} (l : List (String × α)) (k k' : String)
    (h : k' ≠ k) : lookupKey (eraseKey l k) k' = lookupKey l k' := by
  have hkk' : ¬ (k = k') := fun hh => h hh.symm
  induction l with
  | nil => simp [eraseKey, lookupKey]
  | cons hd tl ih =>
    obtain ⟨a, b⟩ := hd
    by_cases hak : a = k
    · subst hak
      simpa [eraseKey, lookupKey, hkk'] using ih
    · simp [eraseKey, hak, lookupKey, ih]

theorem mem_of_lookupKey {α : Type} {l : List (String × α)} {s : String} {v : α}
    (h : lookupKey l s = some v) : (s, v) ∈ l := by
  induction l with
  | nil => simp [lookupKey] at h
  | cons hd tl ih =>
    obtain ⟨a, b⟩ := hd
    by_cases has : a = s
    · subst has
      simp [lookupKey] at h
      simp [h]
    · simp [lookupKey, has] at h
      exact List.mem_cons_of_mem _ (ih h)

theorem mem_upsertKey {α : Type} {l : List (String × α)} {k : String} {v : α} {p : String × α}
    (h : p ∈ upsertKey l k v) : p = (k, v) ∨ p ∈ l := by
  induction l with
  | nil => simpa [upsertKey] using h
  | cons hd tl ih =>
    obtain ⟨a, b⟩ := hd
    by_cases hak : a = k
    · simp [upsertKey, hak] at h
      rcases h with h | h
      · exact Or.inl h
      · exact Or.inr (List.mem_cons_of_mem _ h)
    · simp [upsertKey, hak] at h
      rcases h with h | h
      · exact Or.inr (by simp [h])
      · rcases ih h with h' | h'
        · exact Or.inl h'
        · exact Or.inr (List.mem_cons_of_mem _ h')

theorem mem_eraseKey {α : Type} {l : List (String × α)} {k : String} {p : String × α}
    (h : p ∈ eraseKey l k) : p ∈ l := by
  induction l with
  | nil => simp [eraseKey] at h
  | cons hd tl ih =>
    obtain ⟨a, b⟩ := hd
    by_cases hak : a = k
    · simp [eraseKey, hak] at h
      exact List.mem_cons_of_mem _ (ih h)
    · simp [eraseKey, hak] at h
      rcases h with h | h
      · simp [h]
      · exact List.mem_cons_of_mem _ (ih h)

/-! ## Paper trading engine (`services/paper_trading_service.py`)

`PaperTradingEngine` keeps `balance`, `initial_balance`, the open
`positions` dict, the `orders` list and the `trade_history` list.
Positions are the untyped dicts the source builds, modelled as a
structure with the same keys. -/

structure PaperPosition where
  symbol : String
  side : String
  size : ℚ
  entryPrice : ℚ
  currentPrice : ℚ
  unrealizedPnl : ℚ
  stopLoss : Option ℚ
  takeProfit : Option ℚ
deriving DecidableEq, Repr

structure PaperOrder where
  id : Nat
  symbol : String
  side : String
  size : ℚ
  price : ℚ
  otype : String
  status : String
  pnl : Option ℚ
  timestamp : Nat
deriving DecidableEq, Repr

structure PaperTrade where
  symbol : String
  side : String
  entryPrice : ℚ
  exitPrice : ℚ
  size : ℚ
  pnl : ℚ
  timestamp : Nat
deriving DecidableEq, Repr

structure PaperEngine where
  balance : ℚ
  initialBalance : ℚ
  positions : List (String × PaperPosition)
  orders : List PaperOrder
  tradeHistory : List PaperTrade
deriving DecidableEq, Repr

/-- `PaperTradingEngine.__init__(initial_balance)`. -/
def PaperEngine.init (initial_balance : ℚ) : PaperEngine :=
  { balance := initial_balance, initialBalance := initial_balance,
    positions := [], orders := [], tradeHistory := [] }

/-- Result dict of `place_order`: either the rejection dict (`status:
'rejected'` with a reason, plus `balance`/`required` on the
insufficient-balance path) or the filled order dict.  A side other than
`'buy'`/`'sell'` falls through the Python function and returns `None`,
modelled by the enclosing `Option`. -/
inductive OrderResult where
  | rejected (reason : String) (balance required : Option ℚ)
  | filled (order : PaperOrder)
deriving DecidableEq, Repr

/-- The position dict written by the `'buy'` branch of `place_order`:
average into an existing position (entry = size-weighted average,
stop-loss / take-profit carried over) or create a fresh long one. -/
def buyPosition (positions : List (String × PaperPosition)) (symbol : String)
    (size price : ℚ) : PaperPosition :=
  match lookupKey positions symbol with
  | some existing =>
    let total_size := existing.size + size
    let avg_price :=
      (existing.entryPrice * existing.size + price * size) / total_size
    { symbol := symbol, side := "long", size := total_size,
      entryPrice := avg_price, currentPrice := price, unrealizedPnl := 0,
      stopLoss := existing.stopLoss, takeProfit := existing.takeProfit }
  | none =>
    { symbol := symbol, side := "long", size := size, entryPrice := price,
      currentPrice := price, unrealizedPnl := 0,
      stopLoss := none, takeProfit := none }

/-- `PaperTradingEngine.place_order(symbol, side, size, price)`.
`now` stands for `datetime.utcnow()` read when building the order /
trade records; it never influences balances, positions or PnL. -/
def PaperEngine.place_order (e : PaperEngine) (symbol side : String)
    (size price : ℚ) (now : Nat) : Option OrderResult × PaperEngine :=
  let order_value := size * price
  if side = "buy" then
    if order_value > e.balance then
      (some (.rejected "Insufficient balance" (some e.balance) (some order_value)), e)
    else
      let e1 : PaperEngine := { e with balance := e.balance - order_value }
      let newPos : PaperPosition := buyPosition e1.positions symbol size price
      let e2 : PaperEngine := { e1 with positions := upsertKey e1.positions symbol newPos }
      let order : PaperOrder :=
        { id := e2.orders.length + 1, symbol := symbol, side := side, size := size,
          price := price, otype := "market", status := "filled", pnl := none,
          timestamp := now }
      (some (.filled order), { e2 with orders := e2.orders ++ [order] })
  else if side = "sell" then
    match lookupKey e.positions symbol with
    | none => (some (.rejected "No position to close" none none), e)
    | some position =>
      let pnl := (price - position.entryPrice) * position.size
      let e1 : PaperEngine :=
        { e with balance := e.balance + (position.entryPrice * position.size + pnl) }
      let trade : PaperTrade :=
        { symbol := symbol, side := position.side, entryPrice := position.entryPrice,
          exitPrice := price, size := position.size, pnl := pnl, timestamp := now }
      let e2 : PaperEngine := { e1 with tradeHistory := e1.tradeHistory ++ [trade] }
      let e3 : PaperEngine := { e2 with positions := eraseKey e2.positions symbol }
      let order : PaperOrder :=
        { id := e3.orders.length + 1, symbol := symbol, side := side, size := size,
          price := price, otype := "market", status := "filled", pnl := some pnl,
          timestamp := now }
      (some (.filled order), { e3 with orders := e3.orders ++ [order] })
  else (none, e)

/-- Return dict of `close_position`. -/
structure CloseResult where
  success : Bool
  pnl : Option ℚ
  reason : Option String
  error : Option String
deriving DecidableEq, Repr

/-- `PaperTradingEngine.close_position(symbol, price, reason)`: sells the
full stored position size; the `reason` only appears in the returned
dict, never in the recorded trade. -/
def PaperEngine.close_position (e : PaperEngine) (symbol : String) (price : ℚ)
    (reason : String) (now : Nat) : CloseResult × PaperEngine :=
  match lookupKey e.positions symbol with
  | none => ({ success := false, pnl := none, reason := none,
               error := some "No position found" }, e)
  | some position =>
    let r := e.place_order symbol "sell" position.size price now
    match r.1 with
    | some (.filled o) =>
      ({ success := true, pnl := some (o.pnl.getD 0), reason := some reason,
         error := none }, r.2)
    | _ =>
      ({ success := false, pnl := none, reason := none,
         error := some "Failed to close position" }, r.2)

/-- `PaperTradingEngine.update_position_price(symbol, current_price)`.
The stop-loss / take-profit guards mirror Python truthiness
(`if position.get('stopLoss'):`): a `None` or `0` threshold never
triggers.  The take-profit check reads the local dict captured before a
possible stop-loss close, so after a stop-loss close the second
`close_position` call finds no position and is a no-op. -/
def markedPosition (position : PaperPosition) (current_price : ℚ) : PaperPosition :=
  { position with
      currentPrice := current_price,
      unrealizedPnl := (current_price - position.entryPrice) * position.size }

/-- Truthy stop-loss check `if position.get('stopLoss'): if current_price
<= position['stopLoss']:`. -/
def slTriggered (position : PaperPosition) (current_price : ℚ) : Bool :=
  match position.stopLoss with
  | some sl => decide (sl ≠ 0 ∧ current_price ≤ sl)
  | none => false

/-- Truthy take-profit check `if position.get('takeProfit'): if
current_price >= position['takeProfit']:`. -/
def tpTriggered (position : PaperPosition) (current_price : ℚ) : Bool :=
  match position.takeProfit with
  | some tp => decide (tp ≠ 0 ∧ current_price ≥ tp)
  | none => false

def PaperEngine.update_position_price (e : PaperEngine) (symbol : String)
    (current_price : ℚ) (now : Nat) : PaperEngine :=
  match lookupKey e.positions symbol with
  | none => e
  | some position =>
    let position' : PaperPosition := markedPosition position current_price
    let e1 : PaperEngine := { e with positions := upsertKey e.positions symbol position' }
    let e2 :=
      if slTriggered position' current_price then
        (e1.close_position symbol current_price "stop_loss" now).2
      else e1
    if tpTriggered position' current_price then
      (e2.close_position symbol current_price "take_profit" now).2
    else e2

/-- `PaperTradingEngine.set_stop_loss(symbol, stop_loss)`. -/
def PaperEngine.set_stop_loss (e : PaperEngine) (symbol : String) (stop_loss : ℚ) :
    PaperEngine :=
  match lookupKey e.positions symbol with
  | none => e
  | some p =>
    { e with positions := upsertKey e.positions symbol ({ p with stopLoss := some stop_loss }) }

/-- `PaperTradingEngine.set_take_profit(symbol, take_profit)`. -/
def PaperEngine.set_take_profit (e : PaperEngine) (symbol : String) (take_profit : ℚ) :
    PaperEngine :=
  match lookupKey e.positions symbol with
  | none => e
  | some p =>
    { e with positions := upsertKey e.positions symbol ({ p with takeProfit := some take_profit }) }

/-- `PaperTradingEngine.reset(initial_balance)`. -/
def PaperEngine.reset (_e : PaperEngine) (initial_balance : ℚ) : PaperEngine :=
  PaperEngine.init initial_balance

/-! ## Backtesting service (`services/backtesting_service.py`)

`BacktestingService` holds at most one open position (`self.position`).
Only the `price` field of each historical data point is read by the
loop, so the price series is modelled as `List ℚ`.  Timestamps are the
caller-supplied tick times (minutes), never the wall clock. -/

structure BtPosition where
  symbol : String
  side : String
  entry_price : ℚ
  current_price : ℚ
  size : ℚ
  unrealized_pnl : ℚ
  opened_at : Nat
deriving DecidableEq, Repr

structure BacktestTrade where
  timestamp : Nat
  symbol : String
  action : String
  price : ℚ
  size : ℚ
  confidence : ℚ
  reasoning : String
  pnl : ℚ
  balance_after : ℚ
deriving DecidableEq, Repr

structure EquityPoint where
  timestamp : Nat
  balance : ℚ
  position_value : ℚ
deriving DecidableEq, Repr

structure BtSettings where
  leverage : ℚ
  takeProfitPercent : ℚ
  stopLossPercent : ℚ
  maxPositionSize : ℚ
deriving DecidableEq, Repr

/-- The default settings dict built when `settings is None`. -/
def defaultBtSettings : BtSettings :=
  { leverage := 1, takeProfitPercent := 5, stopLossPercent := 2,
    maxPositionSize := 1/2 }

structure BtState where
  initial_balance : ℚ
  balance : ℚ
  position : Option BtPosition
  trades : List BacktestTrade
  equity_curve : List EquityPoint
  peak_balance : ℚ
  max_drawdown : ℚ
deriving DecidableEq, Repr

/-- The state reset performed at the top of `run_backtest`. -/
def BtState.init (initial_balance : ℚ) : BtState :=
  { initial_balance := initial_balance, balance := initial_balance,
    position := none, trades := [], equity_curve := [],
    peak_balance := initial_balance, max_drawdown := 0 }

/-- `BacktestingService._update_position(current_price)` on the position
record: recompute `unrealized_pnl` by side. -/
def bt_update_position (pos : BtPosition) (current_price : ℚ) : BtPosition :=
  let pnl :=
    if pos.side = "long" then (current_price - pos.entry_price) * pos.size
    else (pos.entry_price - current_price) * pos.size
  { pos with
      current_price := current_price,
      unrealized_pnl := pnl }

/-- `_update_position` on the service state (no-op without a position). -/
def BtState.update_position (s : BtState) (current_price : ℚ) : BtState :=
  match s.position with
  | none => s
  | some pos => { s with position := some (bt_update_position pos current_price) }

/-- `BacktestingService._should_close_position(current_price, settings)`:
percentage move from the entry price against the configured
`takeProfitPercent` / `stopLossPercent` thresholds. -/
def bt_should_close_position (s : BtState) (current_price : ℚ)
    (settings : BtSettings) : Bool :=
  match s.position with
  | none => false
  | some pos =>
    let tp_percent := settings.takeProfitPercent
    let sl_percent := settings.stopLossPercent
    let price_change_percent :=
      if pos.side = "long" then
        ((current_price - pos.entry_price) / pos.entry_price) * 100
      else
        ((pos.entry_price - current_price) / pos.entry_price) * 100
    decide (price_change_percent ≥ tp_percent) ||
      decide (price_change_percent ≤ -sl_percent)

/-- `BacktestingService._open_position(...)`: a warning-and-return no-op
when a position already exists; otherwise sizes the position at
`balance * maxPositionSize / price` and deducts its value. -/
def BtState.open_position (s : BtState) (timestamp : Nat) (symbol action : String)
    (price : ℚ) (_confidence : ℚ) (_reasoning : String) (settings : BtSettings) :
    BtState :=
  if s.position.isSome then s
  else
    let max_position_value := s.balance * settings.maxPositionSize
    let size := max_position_value / price
    let position_value := size * price
    let side := if action = "open_long" then "long" else "short"
    { s with
        balance := s.balance - position_value,
        position := some
          { symbol := symbol, side := side, entry_price := price,
            current_price := price, size := size, unrealized_pnl := 0,
            opened_at := timestamp } }

/-- `BacktestingService._close_position(timestamp, price, reason)`:
realize side-dependent PnL, return `size * price` to the balance,
append the Trade record and clear the position. -/
def BtState.close_bt_position (s : BtState) (timestamp : Nat) (price : ℚ)
    (reason : String) : BtState :=
  match s.position with
  | none => s
  | some pos =>
    let pnl :=
      if pos.side = "long" then (price - pos.entry_price) * pos.size
      else (pos.entry_price - price) * pos.size
    let position_value := pos.size * price
    let balance' := s.balance + position_value
    let trade : BacktestTrade :=
      { timestamp := timestamp, symbol := pos.symbol, action := "close",
        price := price, size := pos.size, confidence := 0, reasoning := reason,
        pnl := pnl, balance_after := balance' }
    { s with balance := balance', trades := s.trades ++ [trade], position := none }

/-- `BacktestingService._get_position_value(current_price)`. -/
def BtState.position_value (s : BtState) (current_price : ℚ) : ℚ :=
  match s.position with
  | none => 0
  | some pos => pos.size * current_price

/-- A decision dict produced by the AI service: `action` plus optional
`confidence` / `reasoning` (read with `.get` defaults 0.8 / "AI decision"). -/
structure BtDecision where
  action : String
  confidence : Option ℚ
  reasoning : Option String
deriving DecidableEq, Repr

/-- One iteration of the `run_backtest` while-loop at tick index `k`,
tick time `t` and price `current_price`: mark the open position and
close it on a TP/SL trigger, then (if still flat and an AI service is
wired) consume the decision, then append the equity point and update
peak balance / max drawdown. -/
def bt_step (settings : BtSettings) (ai : Option (Nat → Option BtDecision))
    (k : Nat) (symbol : String) (t : Nat) (current_price : ℚ) (s : BtState) :
    BtState :=
  let s1 :=
    if s.position.isSome then
      let s' := s.update_position current_price
      if bt_should_close_position s' current_price settings then
        s'.close_bt_position t current_price "TP/SL triggered"
      else s'
    else s
  let s2 :=
    match ai with
    | none => s1
    | some f =>
      if s1.position.isNone then
        match f k with
        | some d =>
          if d.action = "open_long" ∨ d.action = "open_short" then
            s1.open_position t symbol d.action current_price
              (d.confidence.getD (4/5)) (d.reasoning.getD "AI decision") settings
          else s1
        | none => s1
      else s1
  let s3 :=
    { s2 with
        equity_curve := s2.equity_curve ++
          [{ timestamp := t, balance := s2.balance,
             position_value :=
               if s2.position.isSome then s2.position_value current_price else 0 }] }
  let total_equity :=
    s3.balance + (if s3.position.isSome then s3.position_value current_price else 0)
  let s4 :=
    if total_equity > s3.peak_balance then { s3 with peak_balance := total_equity }
    else s3
  let drawdown := s4.peak_balance - total_equity
  let drawdown_percent :=
    if s4.peak_balance > 0 then (drawdown / s4.peak_balance) * 100 else 0
  if drawdown_percent > s4.max_drawdown then
    { s4 with max_drawdown := drawdown_percent }
  else s4

/-- The `run_backtest` while-loop (`while current_time <= end_date and
price_index < len(price_data)`), returning the final state and the
final `price_index`. -/
def bt_loop (settings : BtSettings) (ai : Option (Nat → Option BtDecision))
    (symbol : String) (interval_minutes end_date : Nat) :
    Nat → Nat → List ℚ → BtState → BtState × Nat
  | _t, k, [], s => (s, k)
  | t, k, price :: rest, s =>
    if t ≤ end_date then
      bt_loop settings ai symbol interval_minutes end_date
        (t + interval_minutes) (k + 1) rest (bt_step settings ai k symbol t price s)
    else (s, k)

structure BacktestResult where
  start_date : Nat
  end_date : Nat
  initial_balance : ℚ
  final_balance : ℚ
  total_trades : Nat
  winning_trades : Nat
  losing_trades : Nat
  total_pnl : ℚ
  total_pnl_percent : ℚ
  max_drawdown : ℚ
  max_drawdown_percent : ℚ
  sharpe_ratio : ℚ
  win_rate : ℚ
  avg_win : ℚ
  avg_loss : ℚ
  trades : List BacktestTrade
  equity_curve : List EquityPoint
deriving DecidableEq, Repr

/-- `BacktestingService._calculate_results(start_date, end_date)`.
`sqrtFn` stands for the float `** 0.5` primitive used by the simplified
Sharpe computation — a fixed pure function of its argument. -/
def bt_calculate_results (sqrtFn : ℚ → ℚ) (s : BtState)
    (start_date end_date : Nat) : BacktestResult :=
  let total_pnl := s.balance - s.initial_balance
  let total_pnl_percent := (total_pnl / s.initial_balance) * 100
  let winning := s.trades.filter (fun t => decide (t.pnl > 0))
  let losing := s.trades.filter (fun t => decide (t.pnl < 0))
  let win_rate :=
    if s.trades ≠ [] then ((winning.length : ℚ) / (s.trades.length : ℚ)) * 100 else 0
  let avg_win :=
    if winning ≠ [] then (winning.map (·.pnl)).sum / (winning.length : ℚ) else 0
  let avg_loss :=
    if losing ≠ [] then (losing.map (·.pnl)).sum / (losing.length : ℚ) else 0
  let returns := s.trades.map (fun t => t.pnl / s.initial_balance)
  let avg_return := if returns ≠ [] then returns.sum / (returns.length : ℚ) else 0
  let std_return :=
    if returns ≠ [] then
      sqrtFn ((returns.map (fun r => (r - avg_return) ^ 2)).sum / (returns.length : ℚ))
    else 0
  let sharpe_ratio := if std_return > 0 then avg_return / std_return else 0
  { start_date := start_date, end_date := end_date,
    initial_balance := s.initial_balance, final_balance := s.balance,
    total_trades := s.trades.length, winning_trades := winning.length,
    losing_trades := losing.length, total_pnl := total_pnl,
    total_pnl_percent := total_pnl_percent,
    max_drawdown := s.max_drawdown * s.initial_balance / 100,
    max_drawdown_percent := s.max_drawdown, sharpe_ratio := sharpe_ratio,
    win_rate := win_rate, avg_win := avg_win, avg_loss := avg_loss,
    trades := s.trades, equity_curve := s.equity_curve }

/-- `BacktestingService.run_backtest(...)`.  `_wallClock` models the
ambient `datetime.now` capability available to the runtime: the source
never consults it inside the backtest (all timestamps are the
caller-supplied tick times), which is what the determinism theorem
establishes.  An empty price series raises `ValueError`. -/
def run_backtest (sqrtFn : ℚ → ℚ) (_wallClock : Nat → Nat) (symbol : String)
    (start_date end_date interval_minutes : Nat) (settings : Option BtSettings)
    (ai : Option (Nat → Option BtDecision)) (price_data : List ℚ)
    (initial_balance : ℚ) : Except String BacktestResult :=
  if price_data = [] then
    .error "Historical price data is required for backtesting"
  else
    let settings := settings.getD defaultBtSettings
    let s0 := BtState.init initial_balance
    let r := bt_loop settings ai symbol interval_minutes end_date start_date 0 price_data s0
    let s1 := r.1
    let price_index := r.2
    let s2 :=
      if s1.position.isSome && decide (0 < price_index) then
        s1.close_bt_position end_date ((price_data.getLast?).getD 0) "Backtest ended"
      else s1
    .ok (bt_calculate_results sqrtFn s2 start_date end_date)

/-! ## Market data service (`services/market_data_service.py`)

`MarketDataService.fetch_current_price` with its class-level
`price_cache` and the three source chains (Hyperliquid, Binance,
KuCoin).  One call is modelled against the prices the chains would
deliver at that moment (`none` = the whole chain failed).  The outcome
records the returned price or raised error, the cache afterwards, how
many source chains were consulted, and whether the stale-cache branch
(the "Using stale cached price" warning) was taken. -/

structure CacheEntry where
  price : ℚ
  timestamp : ℚ
deriving DecidableEq, Repr

structure SourceResults where
  hyperliquid : Option ℚ
  binance : Option ℚ
  kucoin : Option ℚ
deriving DecidableEq, Repr

/-- Python truthiness of `if price:` applied to a fetch result —
`None` and `0.0` both count as failure. -/
def truthyPrice (o : Option ℚ) : Option ℚ :=
  match o with
  | some p => if p = 0 then none else some p
  | none => none

/-- The value returned by `fetch_current_price` — a price, or the
raised `Exception` message. -/
inductive PriceResult where
  | ok (price : ℚ)
  | err (msg : String)
deriving DecidableEq, Repr

structure FetchOutcome where
  result : PriceResult
  cache : List (String × CacheEntry)
  networkFetches : Nat
  usedStaleCache : Bool
deriving DecidableEq, Repr

def CACHE_DURATION : ℚ := 5

/-- The fallback chain of `fetch_current_price` after a cache miss:
Hyperliquid, then Binance, then KuCoin; first truthy price is written
through to the cache; otherwise the (possibly stale) `cached` entry
captured at entry, else the final error. -/
def fetch_sources (cache : List (String × CacheEntry)) (symbol : String)
    (now : ℚ) (sources : SourceResults) (cached : Option CacheEntry) :
    FetchOutcome :=
  match truthyPrice sources.hyperliquid with
  | some p =>
    { result := .ok p, cache := upsertKey cache symbol ⟨p, now⟩,
      networkFetches := 1, usedStaleCache := false }
  | none =>
    match truthyPrice sources.binance with
    | some p =>
      { result := .ok p, cache := upsertKey cache symbol ⟨p, now⟩,
        networkFetches := 2, usedStaleCache := false }
    | none =>
      match truthyPrice sources.kucoin with
      | some p =>
        { result := .ok p, cache := upsertKey cache symbol ⟨p, now⟩,
          networkFetches := 3, usedStaleCache := false }
      | none =>
        match cached with
        | some c =>
          { result := .ok c.price, cache := cache,
            networkFetches := 3, usedStaleCache := true }
        | none =>
          { result := .err ("Failed to fetch price for " ++ symbol ++ " from all sources"),
            cache := cache, networkFetches := 3, usedStaleCache := false }

/-- `MarketDataService.fetch_current_price(symbol)`: return the cached
price when it is younger than `CACHE_DURATION`, else run the fallback
chain. -/
def fetch_current_price (cache : List (String × CacheEntry)) (symbol : String)
    (now : ℚ) (sources : SourceResults) : FetchOutcome :=
  match lookupKey cache symbol with
  | some c =>
    if now - c.timestamp < CACHE_DURATION then
      { result := .ok c.price, cache := cache, networkFetches := 0,
        usedStaleCache := false }
    else fetch_sources cache symbol now sources (some c)
  | none => fetch_sources cache symbol now sources none

/-! ## Price stream service (`services/price_stream_service.py`) -/

structure PriceSnapshot where
  symbol : String
  price : ℚ
  timestamp : Nat
  source : String
deriving DecidableEq, Repr

/-- Result of one `_fetch_price` task as seen through
`asyncio.gather(..., return_exceptions=True)`: an escaped exception, or
the function's return value (`None` on any handled failure). -/
inductive FetchRes where
  | exc
  | val (p : Option ℚ)
deriving DecidableEq, Repr

/-- One round of `PriceStreamService._poll_prices`: fold over the symbol
list in order; every successful fetch replaces the cached snapshot, and
the snapshot is published to subscribers exactly when there was no
previous snapshot or the price differs.  Returns the cache afterwards
and the published snapshots in publication order. -/
def poll_prices (cache : List (String × PriceSnapshot)) (symbols : List String)
    (fetch : String → FetchRes) (now : Nat) :
    List (String × PriceSnapshot) × List PriceSnapshot :=
  symbols.foldl
    (fun acc symbol =>
      match fetch symbol with
      | .exc => acc
      | .val none => acc
      | .val (some p) =>
        let snapshot : PriceSnapshot :=
          { symbol := symbol, price := p, timestamp := now, source := "hyperliquid" }
        let old_price := lookupKey acc.1 symbol
        let cache' := upsertKey acc.1 symbol snapshot
        match old_price with
        | none => (cache', acc.2 ++ [snapshot])
        | some o =>
          if o.price = p then (cache', acc.2) else (cache', acc.2 ++ [snapshot]))
    (cache, [])

/-! ## Equation lemmas for the paper engine -/

theorem buyPosition_side (positions : List (String × PaperPosition))
    (symbol : String) (size price : ℚ) :
    (buyPosition positions symbol size price).side = "long" := by
  unfold buyPosition
  cases lookupKey positions symbol <;> rfl

theorem place_order_buy_insufficient (e : PaperEngine) (symbol : String)
    (size price : ℚ) (now : Nat) (h : size * price > e.balance) :
    e.place_order symbol "buy" size price now =
      (some (.rejected "Insufficient balance" (some e.balance) (some (size * price))), e) := by
  unfold PaperEngine.place_order
  simp [h]

theorem place_order_buy_filled (e : PaperEngine) (symbol : String)
    (size price : ℚ) (now : Nat) (h : ¬ size * price > e.balance) :
    e.place_order symbol "buy" size price now =
      (some (.filled
        { id := e.orders.length + 1, symbol := symbol, side := "buy", size := size,
          price := price, otype := "market", status := "filled", pnl := none,
          timestamp := now }),
       { e with
           balance := e.balance - size * price,
           positions := upsertKey e.positions symbol (buyPosition e.positions symbol size price),
           orders := e.orders ++
             [{ id := e.orders.length + 1, symbol := symbol, side := "buy", size := size,
                price := price, otype := "market", status := "filled", pnl := none,
                timestamp := now }] }) := by
  unfold PaperEngine.place_order
  simp [h]

theorem place_order_sell_nopos (e : PaperEngine) (symbol : String)
    (size price : ℚ) (now : Nat) (h : lookupKey e.positions symbol = none) :
    e.place_order symbol "sell" size price now =
      (some (.rejected "No position to close" none none), e) := by
  unfold PaperEngine.place_order
  simp [h]

theorem place_order_sell_filled (e : PaperEngine) (symbol : String)
    (size price : ℚ) (now : Nat) (position : PaperPosition)
    (h : lookupKey e.positions symbol = some position) :
    e.place_order symbol "sell" size price now =
      (some (.filled
        { id := e.orders.length + 1, symbol := symbol, side := "sell", size := size,
          price := price, otype := "market", status := "filled",
          pnl := some ((price - position.entryPrice) * position.size),
          timestamp := now }),
       { e with
           balance := e.balance + (position.entryPrice * position.size +
             (price - position.entryPrice) * position.size),
           tradeHistory := e.tradeHistory ++
             [{ symbol := symbol, side := position.side,
                entryPrice := position.entryPrice, exitPrice := price,
                size := position.size,
                pnl := (price - position.entryPrice) * position.size,
                timestamp := now }],
           positions := eraseKey e.positions symbol,
           orders := e.orders ++
             [{ id := e.orders.length + 1, symbol := symbol, side := "sell",
                size := size, price := price, otype := "market", status := "filled",
                pnl := some ((price - position.entryPrice) * position.size),
                timestamp := now }] }) := by
  unfold PaperEngine.place_order
  simp [h]

theorem close_position_nopos (e : PaperEngine) (symbol : String) (price : ℚ)
    (reason : String) (now : Nat) (h : lookupKey e.positions symbol = none) :
    e.close_position symbol price reason now =
      ({ success := false, pnl := none, reason := none,
         error := some "No position found" }, e) := by
  unfold PaperEngine.close_position
  simp [h, place_order_sell_nopos]

theorem close_position_some (e : PaperEngine) (symbol : String) (price : ℚ)
    (reason : String) (now : Nat) (position : PaperPosition)
    (h : lookupKey e.positions symbol = some position) :
    e.close_position symbol price reason now =
      ({ success := true, pnl := some ((price - position.entryPrice) * position.size),
         reason := some reason, error := none },
       (e.place_order symbol "sell" position.size price now).2) := by
  unfold PaperEngine.close_position
  simp [h, place_order_sell_filled e symbol position.size price now position h]

/-- Engine component of `close_position`, independent of the result dict. -/
theorem close_position_engine (e : PaperEngine) (symbol : String) (price : ℚ)
    (reason : String) (now : Nat) :
    (e.close_position symbol price reason now).2 =
      match lookupKey e.positions symbol with
      | none => e
      | some position => (e.place_order symbol "sell" position.size price now).2 := by
  cases h : lookupKey e.positions symbol with
  | none => rw [close_position_nopos e symbol price reason now h]
  | some position => rw [close_position_some e symbol price reason now position h]

theorem close_position_engine_nopos (e : PaperEngine) (symbol : String) (price : ℚ)
    (reason : String) (now : Nat) (h : lookupKey e.positions symbol = none) :
    (e.close_position symbol price reason now).2 = e := by
  rw [close_position_engine]
  simp [h]

theorem update_position_price_nopos (e : PaperEngine) (symbol : String)
    (px : ℚ) (now : Nat) (h : lookupKey e.positions symbol = none) :
    e.update_position_price symbol px now = e := by
  unfold PaperEngine.update_position_price
  simp [h]

theorem update_position_price_eq (e : PaperEngine) (symbol : String) (px : ℚ)
    (now : Nat) (position : PaperPosition)
    (h : lookupKey e.positions symbol = some position) :
    e.update_position_price symbol px now =
      (let position' := markedPosition position px
       let e1 : PaperEngine := { e with positions := upsertKey e.positions symbol position' }
       let e2 :=
         if slTriggered position' px then
           (e1.close_position symbol px "stop_loss" now).2
         else e1
       if tpTriggered position' px then
         (e2.close_position symbol px "take_profit" now).2
       else e2) := by
  unfold PaperEngine.update_position_price
  simp [h]

theorem lookup_after_sell (e : PaperEngine) (symbol : String) (size price : ℚ)
    (now : Nat) (position : PaperPosition)
    (h : lookupKey e.positions symbol = some position) :
    lookupKey (e.place_order symbol "sell" size price now).2.positions symbol = none := by
  rw [place_order_sell_filled e symbol size price now position h]
  simpa using lookupKey_eraseKey_self e.positions symbol

/-- `update_position_price` with an open position either just remarks it
(no trigger) or performs the full-close sell (stop-loss or take-profit
trigger); a double trigger closes only once because the second
`close_position` finds no position. -/
theorem update_position_price_trigger_cases (e : PaperEngine) (symbol : String)
    (px : ℚ) (now : Nat) (position : PaperPosition)
    (h : lookupKey e.positions symbol = some position) :
    e.update_position_price symbol px now =
      (if slTriggered (markedPosition position px) px ||
          tpTriggered (markedPosition position px) px then
        (({ e with positions := upsertKey e.positions symbol (markedPosition position px) }
            : PaperEngine).place_order symbol "sell" (markedPosition position px).size px now).2
      else
        { e with positions := upsertKey e.positions symbol (markedPosition position px) }) := by
  rw [update_position_price_eq e symbol px now position h]
  have hlk1 : lookupKey (upsertKey e.positions symbol (markedPosition position px)) symbol
      = some (markedPosition position px) := lookupKey_upsertKey_self _ _ _
  by_cases hsl : slTriggered (markedPosition position px) px = true
  · by_cases htp : tpTriggered (markedPosition position px) px = true
    · simp only [hsl, htp, if_true, Bool.true_or]
      rw [close_position_some
        ({ e with positions := upsertKey e.positions symbol (markedPosition position px) })
        symbol px "stop_loss" now (markedPosition position px) hlk1]
      simp only
      rw [close_position_engine_nopos _ symbol px "take_profit" now
        (lookup_after_sell _ symbol (markedPosition position px).size px now
          (markedPosition position px) hlk1)]
    · simp only [hsl, htp, if_true, if_false, Bool.true_or, Bool.false_eq_true]
      rw [close_position_some
        ({ e with positions := upsertKey e.positions symbol (markedPosition position px) })
        symbol px "stop_loss" now (markedPosition position px) hlk1]
  · by_cases htp : tpTriggered (markedPosition position px) px = true
    · simp only [hsl, htp, if_true, if_false, Bool.false_eq_true, Bool.false_or]
      rw [close_position_some
        ({ e with positions := upsertKey e.positions symbol (markedPosition position px) })
        symbol px "take_profit" now (markedPosition position px) hlk1]
    · simp only [hsl, htp, if_false, Bool.false_eq_true, Bool.false_or]

/-- If the position is still present after `update_position_price`, it
is exactly the freshly marked record. -/
theorem update_lookup_marked (e : PaperEngine) (symbol : String) (px : ℚ)
    (now : Nat) (position : PaperPosition)
    (h : lookupKey e.positions symbol = some position) (q : PaperPosition)
    (hq : lookupKey (e.update_position_price symbol px now).positions symbol = some q) :
    q = markedPosition position px := by
  rw [update_position_price_trigger_cases e symbol px now position h] at hq
  by_cases htr : (slTriggered (markedPosition position px) px ||
      tpTriggered (markedPosition position px) px) = true
  · rw [if_pos htr] at hq
    rw [lookup_after_sell _ _ _ _ _ _ (lookupKey_upsertKey_self _ _ _)] at hq
    cases hq
  · rw [if_neg htr] at hq
    simp only at hq
    rw [lookupKey_upsertKey_self] at hq
    exact (Option.some_inj.mp hq).symm

/-! ## Reachable paper-engine states and the long-only invariant -/

/-- Engine states reachable through the public `PaperTradingEngine`
operations from a fresh engine. -/
inductive Reachable : PaperEngine → Prop
  | init (b : ℚ) : Reachable (PaperEngine.init b)
  | place (e : PaperEngine) (symbol side : String) (size price : ℚ) (now : Nat) :
      Reachable e → Reachable (e.place_order symbol side size price now).2
  | close (e : PaperEngine) (symbol : String) (price : ℚ) (reason : String) (now : Nat) :
      Reachable e → Reachable (e.close_position symbol price reason now).2
  | update (e : PaperEngine) (symbol : String) (price : ℚ) (now : Nat) :
      Reachable e → Reachable (e.update_position_price symbol price now)
  | setSL (e : PaperEngine) (symbol : String) (sl : ℚ) :
      Reachable e → Reachable (e.set_stop_loss symbol sl)
  | setTP (e : PaperEngine) (symbol : String) (tp : ℚ) :
      Reachable e → Reachable (e.set_take_profit symbol tp)
  | reset (e : PaperEngine) (b : ℚ) :
      Reachable e → Reachable (e.reset b)

/-- Every stored position is long. -/
def AllLong (e : PaperEngine) : Prop :=
  ∀ p ∈ e.positions, (p : String × PaperPosition).2.side = "long"

theorem allLong_init (b : ℚ) : AllLong (PaperEngine.init b) := by
  intro p hp
  simp [PaperEngine.init] at hp

theorem allLong_place_order {e : PaperEngine} (h : AllLong e)
    (symbol side : String) (size price : ℚ) (now : Nat) :
    AllLong (e.place_order symbol side size price now).2 := by
  by_cases hbuy : side = "buy"
  · subst hbuy
    by_cases hbal : size * price > e.balance
    · rw [place_order_buy_insufficient e symbol size price now hbal]
      exact h
    · rw [place_order_buy_filled e symbol size price now hbal]
      intro p hp
      simp at hp
      rcases mem_upsertKey hp with rfl | hm
      · exact buyPosition_side _ _ _ _
      · exact h _ hm
  · by_cases hsell : side = "sell"
    · subst hsell
      cases hlk : lookupKey e.positions symbol with
      | none =>
        rw [place_order_sell_nopos e symbol size price now hlk]
        exact h
      | some position =>
        rw [place_order_sell_filled e symbol size price now position hlk]
        intro p hp
        simp at hp
        exact h _ (mem_eraseKey hp)
    · have hnone : e.place_order symbol side size price now = (none, e) := by
        unfold PaperEngine.place_order
        simp [hbuy, hsell]
      rw [hnone]
      exact h

theorem allLong_close_position {e : PaperEngine} (h : AllLong e)
    (symbol : String) (price : ℚ) (reason : String) (now : Nat) :
    AllLong (e.close_position symbol price reason now).2 := by
  rw [close_position_engine]
  cases hlk : lookupKey e.positions symbol with
  | none => exact h
  | some position => exact allLong_place_order h symbol "sell" position.size price now

theorem allLong_update_position_price {e : PaperEngine} (h : AllLong e)
    (symbol : String) (px : ℚ) (now : Nat) :
    AllLong (e.update_position_price symbol px now) := by
  cases hlk : lookupKey e.positions symbol with
  | none =>
    rw [update_position_price_nopos e symbol px now hlk]
    exact h
  | some position =>
    rw [update_position_price_eq e symbol px now position hlk]
    have h1 : AllLong { e with positions := upsertKey e.positions symbol (markedPosition position px) } := by
      intro p hp
      simp at hp
      rcases mem_upsertKey hp with rfl | hm
      · have hlong := h _ (mem_of_lookupKey hlk)
        simpa [markedPosition] using hlong
      · exact h _ hm
    by_cases hsl : slTriggered (markedPosition position px) px = true
    · by_cases htp : tpTriggered (markedPosition position px) px = true
      · simp only [hsl, htp, if_true]
        exact allLong_close_position (allLong_close_position h1 _ _ _ _) _ _ _ _
      · simp only [hsl, htp, if_true, if_false, Bool.false_eq_true]
        exact allLong_close_position h1 _ _ _ _
    · by_cases htp : tpTriggered (markedPosition position px) px = true
      · simp only [hsl, htp, if_true, if_false, Bool.false_eq_true]
        exact allLong_close_position h1 _ _ _ _
      · simp only [hsl, htp, if_false, Bool.false_eq_true]
        exact h1

theorem allLong_set_stop_loss {e : PaperEngine} (h : AllLong e)
    (symbol : String) (sl : ℚ) : AllLong (e.set_stop_loss symbol sl) := by
  unfold PaperEngine.set_stop_loss
  cases hlk : lookupKey e.positions symbol with
  | none => exact h
  | some p =>
    intro q hq
    simp at hq
    rcases mem_upsertKey hq with rfl | hm
    · have hlong := h _ (mem_of_lookupKey hlk)
      simpa using hlong
    · exact h _ hm

theorem allLong_set_take_profit {e : PaperEngine} (h : AllLong e)
    (symbol : String) (tp : ℚ) : AllLong (e.set_take_profit symbol tp) := by
  unfold PaperEngine.set_take_profit
  cases hlk : lookupKey e.positions symbol with
  | none => exact h
  | some p =>
    intro q hq
    simp at hq
    rcases mem_upsertKey hq with rfl | hm
    · have hlong := h _ (mem_of_lookupKey hlk)
      simpa using hlong
    · exact h _ hm

/-- The long-only invariant holds in every reachable engine state. -/
theorem allLong_reachable {e : PaperEngine} (h : Reachable e) : AllLong e := by
  induction h with
  | init b => exact allLong_init b
  | place e symbol side size price now _ ih =>
    exact allLong_place_order ih symbol side size price now
  | close e symbol price reason now _ ih =>
    exact allLong_close_position ih symbol price reason now
  | update e symbol price now _ ih =>
    exact allLong_update_position_price ih symbol price now
  | setSL e symbol sl _ ih => exact allLong_set_stop_loss ih symbol sl
  | setTP e symbol tp _ ih => exact allLong_set_take_profit ih symbol tp
  | reset e b _ _ => exact allLong_init b

/-! ## Concrete example states used by witnesses and counterexamples -/

/-- The position created by buying 1 BTC at 100 on a fresh engine. -/
def examplePos : PaperPosition :=
  { symbol := "BTC", side := "long", size := 1, entryPrice := 100,
    currentPrice := 100, unrealizedPnl := 0, stopLoss := none, takeProfit := none }

/-- Fresh engine (balance 10000) after buying 1 BTC at 100. -/
def exampleBuy : PaperEngine :=
  ((PaperEngine.init 10000).place_order "BTC" "buy" 1 100 0).2

/-- Fresh engine (balance 10000) after buying 2 BTC at 100. -/
def exampleBuy2 : PaperEngine :=
  ((PaperEngine.init 10000).place_order "BTC" "buy" 2 100 0).2

/-- `examplePos` marked at price 110. -/
def exampleMarked : PaperPosition :=
  { symbol := "BTC", side := "long", size := 1, entryPrice := 100,
    currentPrice := 110, unrealizedPnl := 10, stopLoss := none, takeProfit := none }

/-- A short backtest position: 1 ETH entered at 3000. -/
def exampleShortPos : BtPosition :=
  { symbol := "ETH", side := "short", entry_price := 3000, current_price := 3000,
    size := 1, unrealized_pnl := 0, opened_at := 0 }

/-! ## Claim theorems -/

/-- C9: a buy order whose notional `size * price` exceeds the current
balance returns the rejection dict (status 'rejected', reason
'Insufficient balance', with the balance and required notional) and
leaves the whole engine state — balance, positions, orders and trade
history — exactly as before the call. -/
theorem buy_insufficient_balance_rejected (e : PaperEngine) (symbol : String)
    (size price : ℚ) (now : Nat) (h : size * price > e.balance) :
    e.place_order symbol "buy" size price now =
      (some (.rejected "Insufficient balance" (some e.balance) (some (size * price))), e) :=
  place_order_buy_insufficient e symbol size price now h

theorem buy_insufficient_balance_rejected_witness :
    (2 * 100 : ℚ) > (PaperEngine.init 150).balance ∧
    (PaperEngine.init 150).place_order "BTC" "buy" 2 100 0 =
      (some (.rejected "Insufficient balance" (some (PaperEngine.init 150).balance)
        (some (2 * 100))), PaperEngine.init 150) :=
  ⟨by norm_num [PaperEngine.init],
   buy_insufficient_balance_rejected (PaperEngine.init 150) "BTC" 2 100 0
     (by norm_num [PaperEngine.init])⟩

/-- C10: in every reachable paper-engine state, every open position has
side 'long'; a buy (with sufficient balance) stores a position built by
`buyPosition`, which is always long; and a sell on an existing position
removes it from the positions dict entirely. -/
theorem paper_engine_long_only :
    (∀ e : PaperEngine, Reachable e →
       ∀ p ∈ e.positions, (p : String × PaperPosition).2.side = "long") ∧
    (∀ (e : PaperEngine) (symbol : String) (size price : ℚ) (now : Nat),
       ¬ size * price > e.balance →
       lookupKey (e.place_order symbol "buy" size price now).2.positions symbol =
         some (buyPosition e.positions symbol size price) ∧
       (buyPosition e.positions symbol size price).side = "long") ∧
    (∀ (e : PaperEngine) (symbol : String) (size price : ℚ) (now : Nat)
       (position : PaperPosition), lookupKey e.positions symbol = some position →
       lookupKey (e.place_order symbol "sell" size price now).2.positions symbol = none) := by
  refine ⟨fun e he => allLong_reachable he, ?_, ?_⟩
  · intro e symbol size price now hbal
    constructor
    · rw [place_order_buy_filled e symbol size price now hbal]
      simpa using lookupKey_upsertKey_self e.positions symbol _
    · exact buyPosition_side _ _ _ _
  · intro e symbol size price now position h
    exact lookup_after_sell e symbol size price now position h

theorem paper_engine_long_only_witness :
    ("BTC", examplePos).2.side = "long" ∧
    (lookupKey ((PaperEngine.init 10000).place_order "BTC" "buy" 1 100 0).2.positions "BTC" =
       some (buyPosition (PaperEngine.init 10000).positions "BTC" 1 100) ∧
     (buyPosition (PaperEngine.init 10000).positions "BTC" 1 100).side = "long") ∧
    lookupKey (exampleBuy.place_order "BTC" "sell" 1 110 1).2.positions "BTC" = none := by
  refine ⟨?_, ?_, ?_⟩
  · exact paper_engine_long_only.1 exampleBuy
      (Reachable.place _ "BTC" "buy" 1 100 0 (Reachable.init 10000))
      ("BTC", examplePos)
      (by norm_num [exampleBuy, PaperEngine.init, PaperEngine.place_order,
        buyPosition, lookupKey, upsertKey, examplePos])
  · exact paper_engine_long_only.2.1 (PaperEngine.init 10000) "BTC" 1 100 0
      (by norm_num [PaperEngine.init])
  · exact paper_engine_long_only.2.2 exampleBuy "BTC" 1 110 1 examplePos
      (by norm_num [exampleBuy, PaperEngine.init, PaperEngine.place_order,
        buyPosition, lookupKey, upsertKey, examplePos])

/-- C1: after `update_position_price` (paper) the position still stored
for the marked symbol is long and carries `unrealized_pnl =
(current_price - entry_price) * size`; and the backtest
`_update_position` sets `current_price` to the tick price and
`unrealized_pnl` to `(current - entry) * size` for longs and
`(entry - current) * size` for shorts. -/
theorem unrealized_pnl_after_markPrice :
    (∀ e : PaperEngine, Reachable e → ∀ (symbol : String) (px : ℚ) (now : Nat)
       (q : PaperPosition),
       lookupKey (e.update_position_price symbol px now).positions symbol = some q →
       q.side = "long" ∧ q.currentPrice = px ∧
       q.unrealizedPnl = (q.currentPrice - q.entryPrice) * q.size) ∧
    (∀ (pos : BtPosition) (px : ℚ),
       (bt_update_position pos px).current_price = px ∧
       (bt_update_position pos px).unrealized_pnl =
         (if pos.side = "long" then (px - pos.entry_price) * pos.size
          else (pos.entry_price - px) * pos.size)) := by
  constructor
  · intro e he symbol px now q hq
    cases hlk : lookupKey e.positions symbol with
    | none =>
      rw [update_position_price_nopos e symbol px now hlk, hlk] at hq
      cases hq
    | some position =>
      have hqm := update_lookup_marked e symbol px now position hlk q hq
      subst hqm
      have hlong := allLong_reachable he _ (mem_of_lookupKey hlk)
      exact ⟨by simpa [markedPosition] using hlong, rfl, by simp [markedPosition]⟩
  · intro pos px
    unfold bt_update_position
    by_cases hside : pos.side = "long" <;> simp [hside]

theorem unrealized_pnl_after_markPrice_witness :
    (exampleMarked.side = "long" ∧ exampleMarked.currentPrice = 110 ∧
     exampleMarked.unrealizedPnl =
       (exampleMarked.currentPrice - exampleMarked.entryPrice) * exampleMarked.size) ∧
    ((bt_update_position exampleShortPos 3150).current_price = 3150 ∧
     (bt_update_position exampleShortPos 3150).unrealized_pnl =
       (if exampleShortPos.side = "long" then
          (3150 - exampleShortPos.entry_price) * exampleShortPos.size
        else (exampleShortPos.entry_price - 3150) * exampleShortPos.size)) := by
  constructor
  · exact unrealized_pnl_after_markPrice.1 exampleBuy
      (Reachable.place _ "BTC" "buy" 1 100 0 (Reachable.init 10000))
      "BTC" 110 1 exampleMarked
      (by norm_num [exampleBuy, PaperEngine.init, PaperEngine.place_order,
        PaperEngine.update_position_price, markedPosition, slTriggered, tpTriggered,
        buyPosition, lookupKey, upsertKey, exampleMarked])
  · exact unrealized_pnl_after_markPrice.2 exampleShortPos 3150

/-- C5: adding to an existing position (same engine-enforced long side,
positive sizes, sufficient balance) stores the `buyPosition` record
whose entry price is the size-weighted average
`(old_entry*old_size + price*added_size) / (old_size + added_size)`,
and that average lies between the old entry and the fill price. -/
theorem add_to_position_weighted_average (e : PaperEngine) (symbol : String)
    (size price : ℚ) (now : Nat) (existing : PaperPosition)
    (hlk : lookupKey e.positions symbol = some existing)
    (hS : 0 < existing.size) (hA : 0 < size)
    (hbal : ¬ size * price > e.balance) :
    lookupKey (e.place_order symbol "buy" size price now).2.positions symbol =
      some (buyPosition e.positions symbol size price) ∧
    (buyPosition e.positions symbol size price).entryPrice =
      (existing.entryPrice * existing.size + price * size) / (existing.size + size) ∧
    min existing.entryPrice price ≤ (buyPosition e.positions symbol size price).entryPrice ∧
    (buyPosition e.positions symbol size price).entryPrice ≤ max existing.entryPrice price := by
  have hlookup : lookupKey (e.place_order symbol "buy" size price now).2.positions symbol =
      some (buyPosition e.positions symbol size price) := by
    rw [place_order_buy_filled e symbol size price now hbal]
    simpa using lookupKey_upsertKey_self e.positions symbol _
  have hentry : (buyPosition e.positions symbol size price).entryPrice =
      (existing.entryPrice * existing.size + price * size) / (existing.size + size) := by
    unfold buyPosition
    rw [hlk]
  have hD : (0 : ℚ) < existing.size + size := by linarith
  refine ⟨hlookup, hentry, ?_, ?_⟩
  · rw [hentry, le_div_iff₀ hD]
    rcases le_total existing.entryPrice price with hEP | hEP
    · rw [min_eq_left hEP]
      nlinarith
    · rw [min_eq_right hEP]
      nlinarith
  · rw [hentry, div_le_iff₀ hD]
    rcases le_total existing.entryPrice price with hEP | hEP
    · rw [max_eq_right hEP]
      nlinarith
    · rw [max_eq_left hEP]
      nlinarith

theorem add_to_position_weighted_average_witness :
    lookupKey (exampleBuy.place_order "BTC" "buy" 1 120 1).2.positions "BTC" =
      some (buyPosition exampleBuy.positions "BTC" 1 120) ∧
    (buyPosition exampleBuy.positions "BTC" 1 120).entryPrice =
      (examplePos.entryPrice * examplePos.size + 120 * 1) / (examplePos.size + 1) ∧
    min examplePos.entryPrice 120 ≤ (buyPosition exampleBuy.positions "BTC" 1 120).entryPrice ∧
    (buyPosition exampleBuy.positions "BTC" 1 120).entryPrice ≤ max examplePos.entryPrice 120 :=
  add_to_position_weighted_average exampleBuy "BTC" 1 120 1 examplePos
    (by norm_num [exampleBuy, PaperEngine.init, PaperEngine.place_order,
      buyPosition, lookupKey, upsertKey, examplePos])
    (by norm_num [examplePos]) (by norm_num)
    (by norm_num [exampleBuy, PaperEngine.init, PaperEngine.place_order,
      buyPosition, lookupKey, upsertKey])

/-- C2 counterexample: on an engine holding 2 BTC entered at 100, a sell
order for only 1 BTC at 110 does NOT leave a 1-BTC position open — the
position is removed entirely and the recorded trade realizes PnL on the
full original size 2 (`(110 - 100) * 2 = 20`). -/
theorem reduce_close_partial_cex :
    lookupKey ((exampleBuy2.place_order "BTC" "sell" 1 110 1).2).positions "BTC" = none ∧
    ((exampleBuy2.place_order "BTC" "sell" 1 110 1).2).tradeHistory =
      [{ symbol := "BTC", side := "long", entryPrice := 100, exitPrice := 110,
         size := 2, pnl := 20, timestamp := 1 }] := by
  norm_num [exampleBuy2, PaperEngine.init, PaperEngine.place_order, buyPosition,
    lookupKey, upsertKey, eraseKey, (by decide : ("sell" : String) ≠ "buy")]

/-- C2 (amended): any sell order on an existing position performs a
full close regardless of the requested size: the filled order and the
recorded trade realize PnL on the full original position size at
`(price - entry) * size`, the position is removed from the ledger, and
the entry notional plus PnL is returned to the balance.  There is no
partial close. -/
theorem sell_always_full_close (e : PaperEngine) (symbol : String) (size price : ℚ)
    (now : Nat) (position : PaperPosition)
    (h : lookupKey e.positions symbol = some position) :
    (e.place_order symbol "sell" size price now).1 =
      some (.filled
        { id := e.orders.length + 1, symbol := symbol, side := "sell", size := size,
          price := price, otype := "market", status := "filled",
          pnl := some ((price - position.entryPrice) * position.size),
          timestamp := now }) ∧
    lookupKey (e.place_order symbol "sell" size price now).2.positions symbol = none ∧
    (e.place_order symbol "sell" size price now).2.tradeHistory =
      e.tradeHistory ++
        [{ symbol := symbol, side := position.side, entryPrice := position.entryPrice,
           exitPrice := price, size := position.size,
           pnl := (price - position.entryPrice) * position.size, timestamp := now }] ∧
    (e.place_order symbol "sell" size price now).2.balance =
      e.balance + (position.entryPrice * position.size +
        (price - position.entryPrice) * position.size) := by
  refine ⟨?_, lookup_after_sell e symbol size price now position h, ?_, ?_⟩ <;>
    rw [place_order_sell_filled e symbol size price now position h]

/-- The position held by `exampleBuy2`: 2 BTC entered at 100. -/
def examplePos2 : PaperPosition :=
  { symbol := "BTC", side := "long", size := 2, entryPrice := 100,
    currentPrice := 100, unrealizedPnl := 0, stopLoss := none, takeProfit := none }

theorem sell_always_full_close_witness :
    (exampleBuy2.place_order "BTC" "sell" 1 110 1).1 =
      some (.filled
        { id := exampleBuy2.orders.length + 1, symbol := "BTC", side := "sell",
          size := 1, price := 110, otype := "market", status := "filled",
          pnl := some ((110 - examplePos2.entryPrice) * examplePos2.size),
          timestamp := 1 }) ∧
    lookupKey (exampleBuy2.place_order "BTC" "sell" 1 110 1).2.positions "BTC" = none ∧
    (exampleBuy2.place_order "BTC" "sell" 1 110 1).2.tradeHistory =
      exampleBuy2.tradeHistory ++
        [{ symbol := "BTC", side := examplePos2.side, entryPrice := examplePos2.entryPrice,
           exitPrice := 110, size := examplePos2.size,
           pnl := (110 - examplePos2.entryPrice) * examplePos2.size, timestamp := 1 }] ∧
    (exampleBuy2.place_order "BTC" "sell" 1 110 1).2.balance =
      exampleBuy2.balance + (examplePos2.entryPrice * examplePos2.size +
        (110 - examplePos2.entryPrice) * examplePos2.size) :=
  sell_always_full_close exampleBuy2 "BTC" 1 110 1 examplePos2
    (by norm_num [exampleBuy2, PaperEngine.init, PaperEngine.place_order,
      buyPosition, lookupKey, upsertKey, examplePos2])

/-- C4 counterexample: placing a buy for a symbol that already has an
open position does not fail with any `PositionAlreadyOpen` error — the
order fills and the engine merges into the existing position
(size 2+2=4, entry averaged to 110). -/
theorem open_existing_no_error_cex :
    (exampleBuy2.place_order "BTC" "buy" 2 120 1).1 =
      some (.filled
        { id := 2, symbol := "BTC", side := "buy", size := 2, price := 120,
          otype := "market", status := "filled", pnl := none, timestamp := 1 }) ∧
    lookupKey ((exampleBuy2.place_order "BTC" "buy" 2 120 1).2).positions "BTC" =
      some
        { symbol := "BTC", side := "long", size := 4, entryPrice := 110,
          currentPrice := 120, unrealizedPnl := 0, stopLoss := none,
          takeProfit := none } := by
  norm_num [exampleBuy2, PaperEngine.init, PaperEngine.place_order, buyPosition,
    lookupKey, upsertKey]

/-- C4 (amended): opening over an existing position never raises
`PositionAlreadyOpen`.  In the paper engine, a buy for a symbol with an
open position fills and merges: size is summed, entry becomes the
size-weighted average, stop-loss / take-profit are carried over (so the
old position is merged into, not silently replaced by a fresh one).  In
the backtest service, `_open_position` while a position exists is a
silent no-op that leaves the state unchanged. -/
theorem open_existing_behavior :
    (∀ (e : PaperEngine) (symbol : String) (size price : ℚ) (now : Nat)
       (existing : PaperPosition), lookupKey e.positions symbol = some existing →
       ¬ size * price > e.balance →
       (e.place_order symbol "buy" size price now).1 =
         some (.filled
           { id := e.orders.length + 1, symbol := symbol, side := "buy", size := size,
             price := price, otype := "market", status := "filled", pnl := none,
             timestamp := now }) ∧
       lookupKey (e.place_order symbol "buy" size price now).2.positions symbol =
         some (buyPosition e.positions symbol size price) ∧
       (buyPosition e.positions symbol size price).size = existing.size + size ∧
       (buyPosition e.positions symbol size price).entryPrice =
         (existing.entryPrice * existing.size + price * size) / (existing.size + size) ∧
       (buyPosition e.positions symbol size price).stopLoss = existing.stopLoss ∧
       (buyPosition e.positions symbol size price).takeProfit = existing.takeProfit) ∧
    (∀ (s : BtState) (timestamp : Nat) (symbol action : String) (price c : ℚ)
       (r : String) (settings : BtSettings), s.position.isSome = true →
       s.open_position timestamp symbol action price c r settings = s) := by
  constructor
  · intro e symbol size price now existing hlk hbal
    refine ⟨?_, ?_, ?_, ?_, ?_, ?_⟩
    · rw [place_order_buy_filled e symbol size price now hbal]
    · rw [place_order_buy_filled e symbol size price now hbal]
      simpa using lookupKey_upsertKey_self e.positions symbol _
    all_goals
      unfold buyPosition
      rw [hlk]
  · intro s timestamp symbol action price c r settings hpos
    unfold BtState.open_position
    simp [hpos]

theorem open_existing_behavior_witness :
    ((exampleBuy2.place_order "BTC" "buy" 2 120 1).1 =
       some (.filled
         { id := exampleBuy2.orders.length + 1, symbol := "BTC", side := "buy",
           size := 2, price := 120, otype := "market", status := "filled", pnl := none,
           timestamp := 1 }) ∧
     lookupKey (exampleBuy2.place_order "BTC" "buy" 2 120 1).2.positions "BTC" =
       some (buyPosition exampleBuy2.positions "BTC" 2 120) ∧
     (buyPosition exampleBuy2.positions "BTC" 2 120).size = examplePos2.size + 2 ∧
     (buyPosition exampleBuy2.positions "BTC" 2 120).entryPrice =
       (examplePos2.entryPrice * examplePos2.size + 120 * 2) / (examplePos2.size + 2) ∧
     (buyPosition exampleBuy2.positions "BTC" 2 120).stopLoss = examplePos2.stopLoss ∧
     (buyPosition exampleBuy2.positions "BTC" 2 120).takeProfit = examplePos2.takeProfit) ∧
    ({ initial_balance := 10000, balance := 7000, position := some exampleShortPos,
       trades := [], equity_curve := [], peak_balance := 10000,
       max_drawdown := 0 : BtState }.open_position 1 "ETH" "open_long" 3100 1 "x"
         defaultBtSettings =
       { initial_balance := 10000, balance := 7000, position := some exampleShortPos,
         trades := [], equity_curve := [], peak_balance := 10000, max_drawdown := 0 }) := by
  constructor
  · exact open_existing_behavior.1 exampleBuy2 "BTC" 2 120 1 examplePos2
      (by norm_num [exampleBuy2, PaperEngine.init, PaperEngine.place_order,
        buyPosition, lookupKey, upsertKey, examplePos2])
      (by norm_num [exampleBuy2, PaperEngine.init, PaperEngine.place_order,
        buyPosition, lookupKey, upsertKey])
  · exact open_existing_behavior.2 _ 1 "ETH" "open_long" 3100 1 "x" defaultBtSettings rfl

/-- Backtest service state holding the short 1 ETH @ 3000 position
(initial balance 10000, 3000 deducted on open). -/
def btShortState : BtState :=
  { initial_balance := 10000, balance := 7000, position := some exampleShortPos,
    trades := [], equity_curve := [], peak_balance := 10000, max_drawdown := 0 }

/-- C3 counterexample: the claim's scenario — a short 1 ETH opened at
3000, next tick 3150 — does auto-close with realized PnL −150, but the
recorded close reason is the percent-threshold reason "TP/SL triggered"
(2% default stop), not "stop_loss"; no absolute stop-loss price is
consulted anywhere in the backtest, and its trigger fires at the 2%
percent move, not at a 3100 stop price. -/
theorem tp_sl_close_reason_cex :
    (bt_step defaultBtSettings none 1 "ETH" 1 3150 btShortState).trades =
      [{ timestamp := 1, symbol := "ETH", action := "close", price := 3150, size := 1,
         confidence := 0, reasoning := "TP/SL triggered", pnl := -150,
         balance_after := 10150 }] ∧
    ("TP/SL triggered" : String) ≠ "stop_loss" := by
  constructor
  · norm_num [bt_step, btShortState, exampleShortPos, BtState.update_position,
      bt_update_position, bt_should_close_position, defaultBtSettings,
      BtState.close_bt_position, BtState.position_value,
      (by decide : ("short" : String) ≠ "long")]
  · decide

/-- C3 (amended): paper engine — positions are engine-enforced long; a
truthy stop-loss (`sl ≠ 0`) triggers when `current ≤ sl` and a truthy
take-profit when `current ≥ tp`, each causing a single automatic full
close at the current price (the position is removed and exactly one
trade is appended, realizing `(current - entry) * size`); the close
reason is not recorded in the trade history, and once the position is
gone a further price update is a no-op.  Backtest — triggers are
percentage-based on the entry price with the comparison inverted for
shorts (`TP` when the move ≥ `takeProfitPercent`, `SL` when the move ≤
`-stopLossPercent`), and the single close trade records the
caller-passed reason (the loop passes "TP/SL triggered") with
side-dependent PnL. -/
theorem tp_sl_trigger_behavior :
    (∀ (e : PaperEngine) (symbol : String) (px : ℚ) (now : Nat)
       (position : PaperPosition) (sl : ℚ),
       lookupKey e.positions symbol = some position →
       position.stopLoss = some sl → sl ≠ 0 → px ≤ sl →
       lookupKey (e.update_position_price symbol px now).positions symbol = none ∧
       (e.update_position_price symbol px now).tradeHistory =
         e.tradeHistory ++
           [{ symbol := symbol, side := position.side,
              entryPrice := position.entryPrice, exitPrice := px,
              size := position.size,
              pnl := (px - position.entryPrice) * position.size, timestamp := now }]) ∧
    (∀ (e : PaperEngine) (symbol : String) (px : ℚ) (now : Nat)
       (position : PaperPosition) (tp : ℚ),
       lookupKey e.positions symbol = some position →
       slTriggered (markedPosition position px) px = false →
       position.takeProfit = some tp → tp ≠ 0 → px ≥ tp →
       lookupKey (e.update_position_price symbol px now).positions symbol = none ∧
       (e.update_position_price symbol px now).tradeHistory =
         e.tradeHistory ++
           [{ symbol := symbol, side := position.side,
              entryPrice := position.entryPrice, exitPrice := px,
              size := position.size,
              pnl := (px - position.entryPrice) * position.size, timestamp := now }]) ∧
    (∀ (e : PaperEngine) (symbol : String) (px : ℚ) (now : Nat)
       (position : PaperPosition),
       lookupKey e.positions symbol = some position →
       slTriggered (markedPosition position px) px = false →
       tpTriggered (markedPosition position px) px = false →
       lookupKey (e.update_position_price symbol px now).positions symbol =
         some (markedPosition position px) ∧
       (e.update_position_price symbol px now).tradeHistory = e.tradeHistory) ∧
    (∀ (e : PaperEngine) (symbol : String) (px : ℚ) (now : Nat),
       lookupKey e.positions symbol = none →
       e.update_position_price symbol px now = e) ∧
    (∀ (s : BtState) (pos : BtPosition) (px : ℚ) (settings : BtSettings),
       s.position = some pos →
       (bt_should_close_position s px settings = true ↔
         ((if pos.side = "long" then ((px - pos.entry_price) / pos.entry_price) * 100
           else ((pos.entry_price - px) / pos.entry_price) * 100) ≥
            settings.takeProfitPercent ∨
          (if pos.side = "long" then ((px - pos.entry_price) / pos.entry_price) * 100
           else ((pos.entry_price - px) / pos.entry_price) * 100) ≤
            -settings.stopLossPercent))) ∧
    (∀ (s : BtState) (t : Nat) (px : ℚ) (reason : String) (pos : BtPosition),
       s.position = some pos →
       (s.close_bt_position t px reason).position = none ∧
       (s.close_bt_position t px reason).trades =
         s.trades ++
           [{ timestamp := t, symbol := pos.symbol, action := "close", price := px,
              size := pos.size, confidence := 0, reasoning := reason,
              pnl := if pos.side = "long" then (px - pos.entry_price) * pos.size
                     else (pos.entry_price - px) * pos.size,
              balance_after := s.balance + pos.size * px }]) := by
  refine ⟨?_, ?_, ?_, ?_, ?_, ?_⟩
  · intro e symbol px now position sl hlk hsleq hne hle
    have hsl : slTriggered (markedPosition position px) px = true := by
      simp only [slTriggered, markedPosition, hsleq, decide_eq_true_eq]
      exact ⟨hne, hle⟩
    rw [update_position_price_trigger_cases e symbol px now position hlk,
      if_pos (by simp [hsl] :
        (slTriggered (markedPosition position px) px ||
         tpTriggered (markedPosition position px) px) = true)]
    refine ⟨lookup_after_sell _ _ _ _ _ _ (lookupKey_upsertKey_self _ _ _), ?_⟩
    rw [place_order_sell_filled _ _ _ _ _ _ (lookupKey_upsertKey_self _ _ _)]
    simp [markedPosition]
  · intro e symbol px now position tp hlk hsl htpeq hne hge
    have htp : tpTriggered (markedPosition position px) px = true := by
      simp only [tpTriggered, markedPosition, htpeq, decide_eq_true_eq]
      exact ⟨hne, hge⟩
    rw [update_position_price_trigger_cases e symbol px now position hlk,
      if_pos (by simp [htp] :
        (slTriggered (markedPosition position px) px ||
         tpTriggered (markedPosition position px) px) = true)]
    refine ⟨lookup_after_sell _ _ _ _ _ _ (lookupKey_upsertKey_self _ _ _), ?_⟩
    rw [place_order_sell_filled _ _ _ _ _ _ (lookupKey_upsertKey_self _ _ _)]
    simp [markedPosition]
  · intro e symbol px now position hlk hsl htp
    rw [update_position_price_trigger_cases e symbol px now position hlk,
      if_neg (by simp [hsl, htp] :
        ¬ (slTriggered (markedPosition position px) px ||
           tpTriggered (markedPosition position px) px) = true)]
    exact ⟨lookupKey_upsertKey_self _ _ _, rfl⟩
  · intro e symbol px now h
    exact update_position_price_nopos e symbol px now h
  · intro s pos px settings hpos
    unfold bt_should_close_position
    rw [hpos]
    simp [Bool.or_eq_true, decide_eq_true_eq]
  · intro s t px reason pos hpos
    unfold BtState.close_bt_position
    rw [hpos]
    exact ⟨rfl, rfl⟩

/-- `examplePos` with a stop-loss of 95 set. -/
def examplePosSL : PaperPosition :=
  { symbol := "BTC", side := "long", size := 1, entryPrice := 100,
    currentPrice := 100, unrealizedPnl := 0, stopLoss := some 95, takeProfit := none }

/-- `exampleBuy` after `set_stop_loss("BTC", 95)`. -/
def exampleBuySL : PaperEngine := exampleBuy.set_stop_loss "BTC" 95

theorem tp_sl_trigger_behavior_witness :
    (lookupKey (exampleBuySL.update_position_price "BTC" 90 2).positions "BTC" = none ∧
     (exampleBuySL.update_position_price "BTC" 90 2).tradeHistory =
       exampleBuySL.tradeHistory ++
         [{ symbol := "BTC", side := examplePosSL.side,
            entryPrice := examplePosSL.entryPrice, exitPrice := 90,
            size := examplePosSL.size,
            pnl := (90 - examplePosSL.entryPrice) * examplePosSL.size,
            timestamp := 2 }]) ∧
    (PaperEngine.init 500).update_position_price "BTC" 90 2 = PaperEngine.init 500 ∧
    (bt_should_close_position btShortState 3150 defaultBtSettings = true ↔
      ((if exampleShortPos.side = "long" then
          ((3150 - exampleShortPos.entry_price) / exampleShortPos.entry_price) * 100
        else ((exampleShortPos.entry_price - 3150) / exampleShortPos.entry_price) * 100) ≥
         defaultBtSettings.takeProfitPercent ∨
       (if exampleShortPos.side = "long" then
          ((3150 - exampleShortPos.entry_price) / exampleShortPos.entry_price) * 100
        else ((exampleShortPos.entry_price - 3150) / exampleShortPos.entry_price) * 100) ≤
         -defaultBtSettings.stopLossPercent)) ∧
    ((btShortState.close_bt_position 1 3150 "TP/SL triggered").position = none ∧
     (btShortState.close_bt_position 1 3150 "TP/SL triggered").trades =
       btShortState.trades ++
         [{ timestamp := 1, symbol := exampleShortPos.symbol, action := "close",
            price := 3150, size := exampleShortPos.size, confidence := 0,
            reasoning := "TP/SL triggered",
            pnl := if exampleShortPos.side = "long" then
                     (3150 - exampleShortPos.entry_price) * exampleShortPos.size
                   else (exampleShortPos.entry_price - 3150) * exampleShortPos.size,
            balance_after := btShortState.balance + exampleShortPos.size * 3150 }]) := by
  refine ⟨?_, ?_, ?_, ?_⟩
  · exact tp_sl_trigger_behavior.1 exampleBuySL "BTC" 90 2 examplePosSL 95
      (by norm_num [exampleBuySL, exampleBuy, PaperEngine.init,
        PaperEngine.place_order, PaperEngine.set_stop_loss, buyPosition,
        lookupKey, upsertKey, examplePosSL])
      rfl (by norm_num) (by norm_num)
  · exact tp_sl_trigger_behavior.2.2.2.1 (PaperEngine.init 500) "BTC" 90 2
      (by norm_num [PaperEngine.init, lookupKey])
  · exact tp_sl_trigger_behavior.2.2.2.2.1 btShortState exampleShortPos 3150
      defaultBtSettings rfl
  · exact tp_sl_trigger_behavior.2.2.2.2.2 btShortState 1 3150 "TP/SL triggered"
      exampleShortPos rfl

/-- C7: `run_backtest` never consults the ambient wall clock — every
timestamp entering the result is a caller-supplied tick time — so two
runs with the same price series, settings and decision sequence produce
the same `BacktestResult` in every field (trade list, equity-curve
ordering, final balance, statistics), whatever the clock does. -/
theorem backtest_deterministic (sqrtFn : ℚ → ℚ) (clock1 clock2 : Nat → Nat)
    (symbol : String) (start_date end_date interval_minutes : Nat)
    (settings : Option BtSettings) (ai : Option (Nat → Option BtDecision))
    (price_data : List ℚ) (initial_balance : ℚ) :
    run_backtest sqrtFn clock1 symbol start_date end_date interval_minutes settings
        ai price_data initial_balance =
      run_backtest sqrtFn clock2 symbol start_date end_date interval_minutes settings
        ai price_data initial_balance := rfl

/-- Cached snapshot for the price-stream counterexample. -/
def streamCache0 : List (String × PriceSnapshot) :=
  [("BTC", { symbol := "BTC", price := 100, timestamp := 0, source := "hyperliquid" })]

/-- C8 counterexample: a successful fetch returning the unchanged price
100 triggers no notification, but it does change subscriber-visible
state — the cached snapshot (readable through `get_snapshot` /
`get_all_snapshots`) is replaced by a new one bearing the fresh
timestamp. -/
theorem stream_unchanged_price_cex :
    (poll_prices streamCache0 ["BTC"] (fun _ => .val (some 100)) 10).2 = [] ∧
    (poll_prices streamCache0 ["BTC"] (fun _ => .val (some 100)) 10).1 ≠ streamCache0 := by
  constructor
  · norm_num [poll_prices, streamCache0, lookupKey, upsertKey]
  · norm_num [poll_prices, streamCache0, lookupKey, upsertKey]

/-- C8 (amended): in a poll round, a subscriber notification for a
symbol is published exactly when the fetch succeeded and either no
snapshot was cached for it or the fetched price differs from the cached
price; a fetch failure changes nothing; and a successful fetch with an
unchanged price publishes nothing but still replaces the cached
snapshot, refreshing its timestamp. -/
theorem stream_notify_only_on_change :
    (∀ (cache : List (String × PriceSnapshot)) (symbol : String)
       (fetch : String → FetchRes) (now : Nat),
       fetch symbol = .exc → poll_prices cache [symbol] fetch now = (cache, [])) ∧
    (∀ (cache : List (String × PriceSnapshot)) (symbol : String)
       (fetch : String → FetchRes) (now : Nat),
       fetch symbol = .val none → poll_prices cache [symbol] fetch now = (cache, [])) ∧
    (∀ (cache : List (String × PriceSnapshot)) (symbol : String)
       (fetch : String → FetchRes) (now : Nat) (p : ℚ),
       fetch symbol = .val (some p) → lookupKey cache symbol = none →
       poll_prices cache [symbol] fetch now =
         (upsertKey cache symbol
            { symbol := symbol, price := p, timestamp := now, source := "hyperliquid" },
          [{ symbol := symbol, price := p, timestamp := now, source := "hyperliquid" }])) ∧
    (∀ (cache : List (String × PriceSnapshot)) (symbol : String)
       (fetch : String → FetchRes) (now : Nat) (p : ℚ) (o : PriceSnapshot),
       fetch symbol = .val (some p) → lookupKey cache symbol = some o → o.price ≠ p →
       poll_prices cache [symbol] fetch now =
         (upsertKey cache symbol
            { symbol := symbol, price := p, timestamp := now, source := "hyperliquid" },
          [{ symbol := symbol, price := p, timestamp := now, source := "hyperliquid" }])) ∧
    (∀ (cache : List (String × PriceSnapshot)) (symbol : String)
       (fetch : String → FetchRes) (now : Nat) (p : ℚ) (o : PriceSnapshot),
       fetch symbol = .val (some p) → lookupKey cache symbol = some o → o.price = p →
       poll_prices cache [symbol] fetch now =
         (upsertKey cache symbol
            { symbol := symbol, price := p, timestamp := now, source := "hyperliquid" },
          [])) := by
  refine ⟨?_, ?_, ?_, ?_, ?_⟩
  · intro cache symbol fetch now hf
    simp [poll_prices, hf]
  · intro cache symbol fetch now hf
    simp [poll_prices, hf]
  · intro cache symbol fetch now p hf hlk
    simp [poll_prices, hf, hlk]
  · intro cache symbol fetch now p o hf hlk hne
    simp [poll_prices, hf, hlk, hne]
  · intro cache symbol fetch now p o hf hlk heq
    simp [poll_prices, hf, hlk, heq]

theorem stream_notify_only_on_change_witness :
    (poll_prices streamCache0 ["BTC"] (fun _ => .exc) 10 = (streamCache0, [])) ∧
    (poll_prices [] ["BTC"] (fun _ => .val (some 100)) 10 =
       (upsertKey [] "BTC"
          { symbol := "BTC", price := 100, timestamp := 10, source := "hyperliquid" },
        [{ symbol := "BTC", price := 100, timestamp := 10, source := "hyperliquid" }])) ∧
    (poll_prices streamCache0 ["BTC"] (fun _ => .val (some 101)) 10 =
       (upsertKey streamCache0 "BTC"
          { symbol := "BTC", price := 101, timestamp := 10, source := "hyperliquid" },
        [{ symbol := "BTC", price := 101, timestamp := 10, source := "hyperliquid" }])) ∧
    (poll_prices streamCache0 ["BTC"] (fun _ => .val (some 100)) 10 =
       (upsertKey streamCache0 "BTC"
          { symbol := "BTC", price := 100, timestamp := 10, source := "hyperliquid" },
        [])) := by
  refine ⟨?_, ?_, ?_, ?_⟩
  · exact stream_notify_only_on_change.1 streamCache0 "BTC" (fun _ => .exc) 10 rfl
  · exact stream_notify_only_on_change.2.2.1 [] "BTC" (fun _ => .val (some 100)) 10
      100 rfl (by norm_num [lookupKey])
  · exact stream_notify_only_on_change.2.2.2.1 streamCache0 "BTC"
      (fun _ => .val (some 101)) 10 101
      { symbol := "BTC", price := 100, timestamp := 0, source := "hyperliquid" }
      rfl (by norm_num [streamCache0, lookupKey]) (by norm_num)
  · exact stream_notify_only_on_change.2.2.2.2 streamCache0 "BTC"
      (fun _ => .val (some 100)) 10 100
      { symbol := "BTC", price := 100, timestamp := 0, source := "hyperliquid" }
      rfl (by norm_num [streamCache0, lookupKey]) rfl

/-! ## Branch lemmas for `fetch_current_price` -/

theorem fetch_fresh (cache : List (String × CacheEntry)) (symbol : String)
    (now : ℚ) (sources : SourceResults) (c : CacheEntry)
    (hlk : lookupKey cache symbol = some c)
    (hfresh : now - c.timestamp < CACHE_DURATION) :
    fetch_current_price cache symbol now sources =
      { result := .ok c.price, cache := cache, networkFetches := 0,
        usedStaleCache := false } := by
  unfold fetch_current_price
  rw [hlk]
  simp [hfresh]

theorem fetch_not_fresh_eq_sources (cache : List (String × CacheEntry))
    (symbol : String) (now : ℚ) (sources : SourceResults)
    (hnf : ∀ c, lookupKey cache symbol = some c → ¬ now - c.timestamp < CACHE_DURATION) :
    fetch_current_price cache symbol now sources =
      fetch_sources cache symbol now sources (lookupKey cache symbol) := by
  unfold fetch_current_price
  cases hlk : lookupKey cache symbol with
  | none => rfl
  | some c => simp [hnf c hlk]

theorem fetch_sources_hyper (cache : List (String × CacheEntry)) (symbol : String)
    (now : ℚ) (sources : SourceResults) (cached : Option CacheEntry) (p : ℚ)
    (h : truthyPrice sources.hyperliquid = some p) :
    fetch_sources cache symbol now sources cached =
      { result := .ok p, cache := upsertKey cache symbol ⟨p, now⟩,
        networkFetches := 1, usedStaleCache := false } := by
  unfold fetch_sources
  rw [h]

theorem fetch_sources_binance (cache : List (String × CacheEntry)) (symbol : String)
    (now : ℚ) (sources : SourceResults) (cached : Option CacheEntry) (p : ℚ)
    (h1 : truthyPrice sources.hyperliquid = none)
    (h2 : truthyPrice sources.binance = some p) :
    fetch_sources cache symbol now sources cached =
      { result := .ok p, cache := upsertKey cache symbol ⟨p, now⟩,
        networkFetches := 2, usedStaleCache := false } := by
  unfold fetch_sources
  rw [h1, h2]

theorem fetch_sources_kucoin (cache : List (String × CacheEntry)) (symbol : String)
    (now : ℚ) (sources : SourceResults) (cached : Option CacheEntry) (p : ℚ)
    (h1 : truthyPrice sources.hyperliquid = none)
    (h2 : truthyPrice sources.binance = none)
    (h3 : truthyPrice sources.kucoin = some p) :
    fetch_sources cache symbol now sources cached =
      { result := .ok p, cache := upsertKey cache symbol ⟨p, now⟩,
        networkFetches := 3, usedStaleCache := false } := by
  unfold fetch_sources
  rw [h1, h2, h3]

theorem fetch_sources_stale (cache : List (String × CacheEntry)) (symbol : String)
    (now : ℚ) (sources : SourceResults) (c : CacheEntry)
    (h1 : truthyPrice sources.hyperliquid = none)
    (h2 : truthyPrice sources.binance = none)
    (h3 : truthyPrice sources.kucoin = none) :
    fetch_sources cache symbol now sources (some c) =
      { result := .ok c.price, cache := cache, networkFetches := 3,
        usedStaleCache := true } := by
  unfold fetch_sources
  rw [h1, h2, h3]

theorem fetch_sources_exhausted (cache : List (String × CacheEntry)) (symbol : String)
    (now : ℚ) (sources : SourceResults)
    (h1 : truthyPrice sources.hyperliquid = none)
    (h2 : truthyPrice sources.binance = none)
    (h3 : truthyPrice sources.kucoin = none) :
    fetch_sources cache symbol now sources none =
      { result := .err ("Failed to fetch price for " ++ symbol ++ " from all sources"),
        cache := cache, networkFetches := 3, usedStaleCache := false } := by
  unfold fetch_sources
  rw [h1, h2, h3]

/-- A non-degraded successful `fetch_sources` run wrote its price
through to the cache with the current timestamp. -/
theorem fetch_sources_cache_write (cache : List (String × CacheEntry))
    (symbol : String) (now : ℚ) (sources : SourceResults)
    (cached : Option CacheEntry) (p : ℚ)
    (hok : (fetch_sources cache symbol now sources cached).result = .ok p)
    (hst : (fetch_sources cache symbol now sources cached).usedStaleCache = false) :
    (fetch_sources cache symbol now sources cached).cache =
      upsertKey cache symbol ⟨p, now⟩ := by
  cases h1 : truthyPrice sources.hyperliquid with
  | some q =>
    rw [fetch_sources_hyper cache symbol now sources cached q h1] at hok ⊢
    simp at hok
    rw [hok]
  | none =>
    cases h2 : truthyPrice sources.binance with
    | some q =>
      rw [fetch_sources_binance cache symbol now sources cached q h1 h2] at hok ⊢
      simp at hok
      rw [hok]
    | none =>
      cases h3 : truthyPrice sources.kucoin with
      | some q =>
        rw [fetch_sources_kucoin cache symbol now sources cached q h1 h2 h3] at hok ⊢
        simp at hok
        rw [hok]
      | none =>
        cases cached with
        | some c =>
          rw [fetch_sources_stale cache symbol now sources c h1 h2 h3] at hst
          simp at hst
        | none =>
          rw [fetch_sources_exhausted cache symbol now sources h1 h2 h3] at hok
          simp at hok

/-- After a call that consulted the network and succeeded without the
stale-cache fallback, the cache holds the returned price stamped `now`;
a second call within the TTL returns it with no network fetch. -/
theorem fetch_ttl_second_call (cache : List (String × CacheEntry)) (symbol : String)
    (now : ℚ) (sources : SourceResults) (p : ℚ)
    (hok : (fetch_current_price cache symbol now sources).result = .ok p)
    (hnet : 0 < (fetch_current_price cache symbol now sources).networkFetches)
    (hst : (fetch_current_price cache symbol now sources).usedStaleCache = false)
    (now' : ℚ) (sources' : SourceResults) (h5 : now' - now < CACHE_DURATION) :
    fetch_current_price (fetch_current_price cache symbol now sources).cache
        symbol now' sources' =
      { result := .ok p,
        cache := (fetch_current_price cache symbol now sources).cache,
        networkFetches := 0, usedStaleCache := false } := by
  have hcache : (fetch_current_price cache symbol now sources).cache =
      upsertKey cache symbol ⟨p, now⟩ := by
    cases hlk : lookupKey cache symbol with
    | none =>
      have he : fetch_current_price cache symbol now sources =
          fetch_sources cache symbol now sources none := by
        unfold fetch_current_price
        rw [hlk]
      rw [he] at hok hst ⊢
      exact fetch_sources_cache_write cache symbol now sources none p hok hst
    | some c =>
      by_cases hf : now - c.timestamp < CACHE_DURATION
      · rw [fetch_fresh cache symbol now sources c hlk hf] at hnet
        simp at hnet
      · have he : fetch_current_price cache symbol now sources =
            fetch_sources cache symbol now sources (some c) := by
          unfold fetch_current_price
          rw [hlk]
          simp [hf]
        rw [he] at hok hst ⊢
        exact fetch_sources_cache_write cache symbol now sources (some c) p hok hst
  rw [hcache]
  exact fetch_fresh _ symbol now' sources' ⟨p, now⟩
    (lookupKey_upsertKey_self _ _ _) (by simpa using h5)

/-- C6: `fetch_current_price` follows the ordered fallback: a cached
price younger than the TTL is returned with no network fetch (and after
a network-backed success, a second call within the TTL makes no network
fetch at all); otherwise the sources are tried in order Hyperliquid,
Binance, KuCoin and the first truthy success is written through to the
cache and returned; otherwise any cached value, however stale, is
returned on the degraded path; and the error is raised only when every
source failed and no cached value exists. -/
theorem price_feed_fallback_algorithm :
    (∀ (cache : List (String × CacheEntry)) (symbol : String) (now : ℚ)
       (sources : SourceResults) (c : CacheEntry),
       lookupKey cache symbol = some c → now - c.timestamp < CACHE_DURATION →
       fetch_current_price cache symbol now sources =
         { result := .ok c.price, cache := cache, networkFetches := 0,
           usedStaleCache := false }) ∧
    (∀ (cache : List (String × CacheEntry)) (symbol : String) (now : ℚ)
       (sources : SourceResults) (p : ℚ),
       (∀ c, lookupKey cache symbol = some c → ¬ now - c.timestamp < CACHE_DURATION) →
       truthyPrice sources.hyperliquid = some p →
       fetch_current_price cache symbol now sources =
         { result := .ok p, cache := upsertKey cache symbol ⟨p, now⟩,
           networkFetches := 1, usedStaleCache := false }) ∧
    (∀ (cache : List (String × CacheEntry)) (symbol : String) (now : ℚ)
       (sources : SourceResults) (p : ℚ),
       (∀ c, lookupKey cache symbol = some c → ¬ now - c.timestamp < CACHE_DURATION) →
       truthyPrice sources.hyperliquid = none → truthyPrice sources.binance = some p →
       fetch_current_price cache symbol now sources =
         { result := .ok p, cache := upsertKey cache symbol ⟨p, now⟩,
           networkFetches := 2, usedStaleCache := false }) ∧
    (∀ (cache : List (String × CacheEntry)) (symbol : String) (now : ℚ)
       (sources : SourceResults) (p : ℚ),
       (∀ c, lookupKey cache symbol = some c → ¬ now - c.timestamp < CACHE_DURATION) →
       truthyPrice sources.hyperliquid = none → truthyPrice sources.binance = none →
       truthyPrice sources.kucoin = some p →
       fetch_current_price cache symbol now sources =
         { result := .ok p, cache := upsertKey cache symbol ⟨p, now⟩,
           networkFetches := 3, usedStaleCache := false }) ∧
    (∀ (cache : List (String × CacheEntry)) (symbol : String) (now : ℚ)
       (sources : SourceResults) (c : CacheEntry),
       lookupKey cache symbol = some c → ¬ now - c.timestamp < CACHE_DURATION →
       truthyPrice sources.hyperliquid = none → truthyPrice sources.binance = none →
       truthyPrice sources.kucoin = none →
       fetch_current_price cache symbol now sources =
         { result := .ok c.price, cache := cache, networkFetches := 3,
           usedStaleCache := true }) ∧
    (∀ (cache : List (String × CacheEntry)) (symbol : String) (now : ℚ)
       (sources : SourceResults),
       lookupKey cache symbol = none →
       truthyPrice sources.hyperliquid = none → truthyPrice sources.binance = none →
       truthyPrice sources.kucoin = none →
       fetch_current_price cache symbol now sources =
         { result := .err ("Failed to fetch price for " ++ symbol ++ " from all sources"),
           cache := cache, networkFetches := 3, usedStaleCache := false }) ∧
    (∀ (cache : List (String × CacheEntry)) (symbol : String) (now : ℚ)
       (sources : SourceResults) (p : ℚ),
       (fetch_current_price cache symbol now sources).result = .ok p →
       0 < (fetch_current_price cache symbol now sources).networkFetches →
       (fetch_current_price cache symbol now sources).usedStaleCache = false →
       ∀ (now' : ℚ) (sources' : SourceResults), now' - now < CACHE_DURATION →
       fetch_current_price (fetch_current_price cache symbol now sources).cache
           symbol now' sources' =
         { result := .ok p,
           cache := (fetch_current_price cache symbol now sources).cache,
           networkFetches := 0, usedStaleCache := false }) := by
  refine ⟨fetch_fresh, ?_, ?_, ?_, ?_, ?_, ?_⟩
  · intro cache symbol now sources p hnf h1
    rw [fetch_not_fresh_eq_sources cache symbol now sources hnf]
    exact fetch_sources_hyper cache symbol now sources _ p h1
  · intro cache symbol now sources p hnf h1 h2
    rw [fetch_not_fresh_eq_sources cache symbol now sources hnf]
    exact fetch_sources_binance cache symbol now sources _ p h1 h2
  · intro cache symbol now sources p hnf h1 h2 h3
    rw [fetch_not_fresh_eq_sources cache symbol now sources hnf]
    exact fetch_sources_kucoin cache symbol now sources _ p h1 h2 h3
  · intro cache symbol now sources c hlk hnf h1 h2 h3
    have he : fetch_current_price cache symbol now sources =
        fetch_sources cache symbol now sources (some c) := by
      unfold fetch_current_price
      rw [hlk]
      simp [hnf]
    rw [he]
    exact fetch_sources_stale cache symbol now sources c h1 h2 h3
  · intro cache symbol now sources hlk h1 h2 h3
    have he : fetch_current_price cache symbol now sources =
        fetch_sources cache symbol now sources none := by
      unfold fetch_current_price
      rw [hlk]
    rw [he]
    exact fetch_sources_exhausted cache symbol now sources h1 h2 h3
  · intro cache symbol now sources p hok hnet hst now' sources' h5
    exact fetch_ttl_second_call cache symbol now sources p hok hnet hst now' sources' h5

/-- Cache with one entry for the feed witness. -/
def feedCache0 : List (String × CacheEntry) := [("BTC", ⟨100, 0⟩)]

/-- All three source chains failing. -/
def sourcesDown : SourceResults := { hyperliquid := none, binance := none, kucoin := none }

/-- Only Hyperliquid answering, at price 101. -/
def sourcesHL : SourceResults := { hyperliquid := some 101, binance := none, kucoin := none }

theorem price_feed_fallback_algorithm_witness :
    (fetch_current_price feedCache0 "BTC" 3 sourcesDown =
       { result := .ok 100, cache := feedCache0, networkFetches := 0,
         usedStaleCache := false }) ∧
    (fetch_current_price [] "BTC" 0 sourcesHL =
       { result := .ok 101, cache := upsertKey [] "BTC" ⟨101, 0⟩,
         networkFetches := 1, usedStaleCache := false }) ∧
    (fetch_current_price feedCache0 "BTC" 10 sourcesDown =
       { result := .ok 100, cache := feedCache0, networkFetches := 3,
         usedStaleCache := true }) ∧
    (fetch_current_price [] "BTC" 0 sourcesDown =
       { result := .err ("Failed to fetch price for " ++ "BTC" ++ " from all sources"),
         cache := [], networkFetches := 3, usedStaleCache := false }) ∧
    (fetch_current_price (fetch_current_price [] "BTC" 0 sourcesHL).cache "BTC" 3
        sourcesDown =
       { result := .ok 101, cache := (fetch_current_price [] "BTC" 0 sourcesHL).cache,
         networkFetches := 0, usedStaleCache := false }) := by
  refine ⟨?_, ?_, ?_, ?_, ?_⟩
  · exact price_feed_fallback_algorithm.1 feedCache0 "BTC" 3 sourcesDown ⟨100, 0⟩
      (by norm_num [feedCache0, lookupKey]) (by norm_num [CACHE_DURATION])
  · exact price_feed_fallback_algorithm.2.1 [] "BTC" 0 sourcesHL 101
      (fun c h => by simp [lookupKey] at h)
      (by norm_num [sourcesHL, truthyPrice])
  · exact price_feed_fallback_algorithm.2.2.2.2.1 feedCache0 "BTC" 10 sourcesDown ⟨100, 0⟩
      (by norm_num [feedCache0, lookupKey]) (by norm_num [CACHE_DURATION])
      (by norm_num [sourcesDown, truthyPrice]) (by norm_num [sourcesDown, truthyPrice])
      (by norm_num [sourcesDown, truthyPrice])
  · exact price_feed_fallback_algorithm.2.2.2.2.2.1 [] "BTC" 0 sourcesDown
      (by norm_num [lookupKey]) (by norm_num [sourcesDown, truthyPrice])
      (by norm_num [sourcesDown, truthyPrice]) (by norm_num [sourcesDown, truthyPrice])
  · exact price_feed_fallback_algorithm.2.2.2.2.2.2 [] "BTC" 0 sourcesHL 101
      (by norm_num [fetch_current_price, fetch_sources, lookupKey, sourcesHL, truthyPrice])
      (by norm_num [fetch_current_price, fetch_sources, lookupKey, sourcesHL, truthyPrice])
      (by norm_num [fetch_current_price, fetch_sources, lookupKey, sourcesHL, truthyPrice])
      3 sourcesDown (by norm_num [CACHE_DURATION])

end DexAgent
